import Mathlib

/-!
Verification of the FigSense PDF figure extraction and classification tool.

The development shallowly embeds the two Python source files
(`ai_classifier.py`, `app.py`).  External effects (the Gemini model call,
Streamlit session state, the ZIP writer, the HTTP downloader) are made
explicit: the outcome of the remote model call is an input of
`classify_figure`, Streamlit side effects become an explicit list of
effects, and the produced ZIP archive becomes a list of named entries.
Python floats carry no arithmetic here (they are only passed through), so
they are modelled as rationals.  Components of the repository that are not
present in the sources (the figure extraction engine with its region
merger) are modelled from the specification text and marked as such.
-/

namespace FigSense

/-! ## Embedding of `src/ai_classifier.py` -/

/-- The record returned by `AIFigureClassifier.classify_figure`
(`src/ai_classifier.py`): classification, confidence, description,
details (a key-value map) and reasoning. -/
structure ClassificationResult where
  classification : String
  confidence : ℚ
  description : String
  details : List (String × String)
  reasoning : String
deriving Repr, DecidableEq

/-- The parsed JSON payload of a successful Gemini response, as read by
`classify_figure` via `result.get(...)`: each field may be absent. -/
structure ModelResponse where
  rtype : Option String
  rconfidence : Option ℚ
  rdescription : Option String
  rdetails : Option (List (String × String))
  rreasoning : Option String
deriving Repr, DecidableEq

/-- Outcome of one call to the external Gemini model from
`classify_figure`: an exception anywhere in the `try` block, an empty
`response.text`, or a successfully parsed JSON payload. -/
inductive ModelOutcome where
  | error : ModelOutcome
  | empty : ModelOutcome
  | success : ModelResponse → ModelOutcome
deriving Repr, DecidableEq

/-- `AIFigureClassifier._fallback_classification`
(`src/ai_classifier.py` lines 144-153). -/
def _fallback_classification : ClassificationResult :=
  { classification := "unknown"
    confidence := 3/10
    description := "Could not classify figure"
    details := []
    reasoning := "AI classification failed, using fallback" }

/-- `AIFigureClassifier.classify_figure` (`src/ai_classifier.py` lines
46-97) as a function of the model call's outcome.  On a parsed response
the fields are taken from the JSON with the source's `dict.get`
defaults; on an exception or an empty response the fallback record is
returned. -/
def classify_figure (outcome : ModelOutcome) : ClassificationResult :=
  match outcome with
  | ModelOutcome.error => _fallback_classification
  | ModelOutcome.empty => _fallback_classification
  | ModelOutcome.success r =>
    { classification := r.rtype.getD "unknown"
      confidence := r.rconfidence.getD (1/2)
      description := r.rdescription.getD "No description available"
      details := r.rdetails.getD []
      reasoning := r.rreasoning.getD "" }

/-- `AIFigureClassifier.figure_categories` (`src/ai_classifier.py` lines
19-44): the fixed category key/description table. -/
def figure_categories : List (String × String) :=
  [ ("bar_chart", "Bar Chart - Shows data using rectangular bars")
  , ("pie_chart", "Pie Chart - Circular chart showing proportions")
  , ("line_graph", "Line Graph - Shows trends over time or continuous data")
  , ("scatter_plot", "Scatter Plot - Shows relationship between two variables")
  , ("histogram", "Histogram - Shows distribution of data")
  , ("box_plot", "Box Plot - Shows statistical distribution")
  , ("heatmap", "Heatmap - Shows data intensity with colors")
  , ("flowchart", "Flowchart - Shows process or workflow")
  , ("organizational_chart", "Organizational Chart - Shows hierarchy")
  , ("network_diagram", "Network Diagram - Shows connections between entities")
  , ("scientific_diagram", "Scientific Diagram - Technical/scientific illustration")
  , ("medical_diagram", "Medical Diagram - Anatomical or medical illustration")
  , ("engineering_diagram", "Engineering Diagram - Technical drawing or schematic")
  , ("map", "Map - Geographic or spatial representation")
  , ("floor_plan", "Floor Plan - Architectural layout")
  , ("timeline", "Timeline - Shows events over time")
  , ("table", "Table - Structured data in rows and columns")
  , ("infographic", "Infographic - Visual information presentation")
  , ("photograph", "Photograph - Real-world image")
  , ("screenshot", "Screenshot - Computer screen capture")
  , ("logo", "Logo - Brand or company symbol")
  , ("chart_other", "Other Chart Type - Specialized chart not in main categories")
  , ("diagram_other", "Other Diagram - General diagram or illustration")
  , ("unknown", "Unknown - Cannot determine figure type") ]

/-- The fixed label set: the keys of `figure_categories`. -/
def figureCategoryKeys : List String := figure_categories.map Prod.fst

/-! ## Embedding of `src/app.py`: figure records and `process_pdf` -/

/-- Axis-aligned bounding box `(x0, y0, x1, y1)` in page coordinate
units. -/
structure Box where
  x0 : ℚ
  y0 : ℚ
  x1 : ℚ
  y1 : ℚ
deriving Repr, DecidableEq

/-- One element of the list returned by
`PDFFigureExtractor.extract_figures` as consumed by `process_pdf`
(`src/app.py` lines 93-104): a record with `page`, `bbox` and `image`;
the raster buffer is abstracted to an identifier. -/
structure FigureData where
  page : ℕ
  bbox : Box
  image : ℕ
deriving Repr, DecidableEq

/-- One element of the `classification_results` list built by
`process_pdf` (`src/app.py` lines 96-105). -/
structure ClassRecord where
  figure_id : ℕ
  classification : String
  confidence : ℚ
  description : String
  details : List (String × String)
  reasoning : String
  page : ℕ
  bbox : Box
deriving Repr, DecidableEq

/-- The record appended by one iteration of the classification loop of
`process_pdf`, for loop index `i`, classifier result `res` and figure
`fd`. -/
def mkClassRecord (i : ℕ) (res : ClassificationResult) (fd : FigureData) :
    ClassRecord :=
  { figure_id := i
    classification := res.classification
    confidence := res.confidence
    description := res.description
    details := res.details
    reasoning := res.reasoning
    page := fd.page
    bbox := fd.bbox }

/-- The classification loop of `process_pdf` (`src/app.py` lines
93-105), with `i` the running `enumerate` index; the outcome of the
model call for the figure at index `i` is supplied by `oracle i`. -/
def classifyLoop (oracle : ℕ → ModelOutcome) :
    ℕ → List FigureData → List ClassRecord
  | _, [] => []
  | i, fd :: rest =>
    mkClassRecord i (classify_figure (oracle i)) fd ::
      classifyLoop oracle (i + 1) rest

/-- The full `classification_results` list built by `process_pdf` from
the extracted figures. -/
def classification_results (oracle : ℕ → ModelOutcome)
    (figures : List FigureData) : List ClassRecord :=
  classifyLoop oracle 0 figures

/-- The Streamlit session-state fields written by `process_pdf`
(`src/app.py` lines 16-21 and 112-114). -/
structure SessionState where
  extracted_figures : List FigureData
  classification_results : List ClassRecord
  processing_complete : Bool
deriving Repr, DecidableEq

/-- The initial session state (`src/app.py` lines 16-21). -/
def initialState : SessionState :=
  { extracted_figures := []
    classification_results := []
    processing_complete := false }

/-- Observable user-facing effects of `process_pdf`, in program
order. -/
inductive Effect where
  | warnNoFigures : Effect
  | errorMessage : Effect
  | unlinkTmp : Effect
  | successMessage : Effect
deriving Repr, DecidableEq

/-- `process_pdf` (`src/app.py` lines 67-130) as a session-state
transformer.  `extracted` is the result of the
`extractor.extract_figures` call (an exception in the `try` block is
`Except.error`); the model-call outcomes are supplied by `oracle`.
Returns the new session state and the list of emitted effects. -/
def process_pdf (st : SessionState)
    (extracted : Except Unit (List FigureData))
    (oracle : ℕ → ModelOutcome) : SessionState × List Effect :=
  match extracted with
  | Except.error _ => (st, [Effect.errorMessage, Effect.unlinkTmp])
  | Except.ok figures =>
    if figures.isEmpty then
      (st, [Effect.warnNoFigures, Effect.unlinkTmp])
    else
      ({ extracted_figures := figures
         classification_results := classification_results oracle figures
         processing_complete := true },
       [Effect.unlinkTmp, Effect.successMessage])

/-! ## Embedding of `create_zip_download` (`src/app.py` lines 275-296) -/

/-- One row of the `figure_summary.csv` dataframe: Figure ID, Filename,
Type, Confidence, Page. -/
structure CsvRow where
  figureId : ℕ
  filename : String
  ftype : String
  confidence : ℚ
  page : ℕ
deriving Repr, DecidableEq

/-- The content of one ZIP entry: the CSV summary or one PNG image
(abstracted to the raster buffer identifier it encodes). -/
inductive ZipContent where
  | csv : List CsvRow → ZipContent
  | png : ℕ → ZipContent
deriving Repr, DecidableEq

/-- One named entry of the produced ZIP archive. -/
structure ZipEntry where
  name : String
  content : ZipContent
deriving Repr, DecidableEq

/-- The PNG file name used by `create_zip_download`:
`figure_page_` page `_` index `.png`. -/
def pngName (page : ℕ) (i : ℕ) : String :=
  "figure_page_" ++ toString page ++ "_" ++ toString i ++ ".png"

/-- The summary row built for index `i` and classification `c` in
`create_zip_download`. -/
def mkCsvRow (i : ℕ) (c : ClassRecord) : CsvRow :=
  { figureId := i
    filename := pngName c.page i
    ftype := c.classification
    confidence := c.confidence
    page := c.page }

/-- The `enumerate(classifications)` comprehension building the summary
dataframe rows. -/
def csvRowsLoop : ℕ → List ClassRecord → List CsvRow
  | _, [] => []
  | i, c :: rest => mkCsvRow i c :: csvRowsLoop (i + 1) rest

/-- The `enumerate(zip(figures, classifications))` loop writing one PNG
entry per pair. -/
def pngEntriesLoop : ℕ → List (FigureData × ClassRecord) → List ZipEntry
  | _, [] => []
  | i, (fig, c) :: rest =>
    ZipEntry.mk (pngName c.page i) (ZipContent.png fig.image) ::
      pngEntriesLoop (i + 1) rest

/-- `create_zip_download` (`src/app.py` lines 275-296): the archive
holds `figure_summary.csv` first, then one PNG per
`zip(figures, classifications)` pair. -/
def create_zip_download (figures : List FigureData)
    (classifications : List ClassRecord) : List ZipEntry :=
  ZipEntry.mk "figure_summary.csv" (ZipContent.csv (csvRowsLoop 0 classifications)) ::
    pngEntriesLoop 0 (figures.zip classifications)

/-! ## Embedding of `AIFigureClassifier.batch_classify`
(`src/ai_classifier.py` lines 159-180) -/

/-- The `for i, image in enumerate(images)` loop of `batch_classify`:
returns the accumulated results and the list of
`progress_callback(i + 1, total)` invocations in order.  The outcome of
the model call for image `img` is `oracle img`. -/
def batchLoop (oracle : ℕ → ModelOutcome) (total : ℕ) (cb : Bool) :
    ℕ → List ℕ → List ClassificationResult × List (ℕ × ℕ)
  | _, [] => ([], [])
  | i, img :: rest =>
    let r := classify_figure (oracle img)
    let p := batchLoop oracle total cb (i + 1) rest
    (r :: p.1, (if cb then [(i + 1, total)] else []) ++ p.2)

/-- `batch_classify`: classify every image in order; `cb` records
whether a `progress_callback` was supplied.  The second component is the
ordered list of callback invocations `(i + 1, total)`. -/
def batch_classify (oracle : ℕ → ModelOutcome) (images : List ℕ)
    (cb : Bool) : List ClassificationResult × List (ℕ × ℕ) :=
  batchLoop oracle images.length cb 0 images

/-! ## Embedding of the URL flow (`src/app.py` lines 132-175) -/

/-- The dict returned by `PDFDownloader.get_file_info_from_url` as
consumed by `validate_pdf_url`. -/
structure FileInfo where
  is_pdf : Bool
  file_size_mb : ℚ
  content_type : String
  url : String
deriving Repr, DecidableEq

/-- Observable actions of the URL flow, in program order. -/
inductive UrlAction where
  | getFileInfo : String → UrlAction
  | errorNotAccessible : UrlAction
  | errorNotPdf : UrlAction
  | reportValidInfo : ℚ → String → UrlAction
  | download : String → UrlAction
  | processFile : UrlAction
  | unlinkTmp : UrlAction
  | errorMessage : UrlAction
deriving Repr, DecidableEq

/-- `validate_pdf_url` (`src/app.py` lines 132-153): requests the file
info; on failure reports an error, otherwise reports size and
content-type for the user. -/
def validate_pdf_url (url : String) (info : Option FileInfo) :
    List UrlAction :=
  UrlAction.getFileInfo url ::
    match info with
    | none => [UrlAction.errorNotAccessible]
    | some fi =>
      if fi.is_pdf then
        [UrlAction.reportValidInfo fi.file_size_mb fi.content_type]
      else [UrlAction.errorNotPdf]

/-- `process_pdf_from_url` (`src/app.py` lines 155-175): downloads the
URL directly, processes the local file, then removes it; on an
exception an error message is shown.  `downloadOk` records whether the
download succeeded. -/
def process_pdf_from_url (url : String) (downloadOk : Bool) :
    List UrlAction :=
  if downloadOk then
    [UrlAction.download url, UrlAction.processFile, UrlAction.unlinkTmp]
  else
    [UrlAction.download url, UrlAction.errorMessage]

/-- The property claimed of the URL flow: every download action in the
trace is preceded by a size/content-type validation report. -/
def validatedBeforeDownload (trace : List UrlAction) : Prop :=
  ∀ j (hj : j < trace.length),
    (∃ u, trace.get ⟨j, hj⟩ = UrlAction.download u) →
    ∃ i, ∃ hi : i < trace.length, i < j ∧
      ∃ s c, trace.get ⟨i, hi⟩ = UrlAction.reportValidInfo s c

/-! ## Spec-modelled figure extraction engine

`PDFFigureExtractor` lives in `figure_extractor.py`, which is not under
`src/`; only its caller (`src/app.py` line 82) is.  The definitions
below are modelled from the specification text. -/

/-- Modelled from the spec: the output ordering convention of the
engine's per-page stages (spec sections 4.2 and 4.4): regions are
emitted "sorted by top-to-bottom, then left-to-right position of their
box's top-left corner".  A region is a final per-page figure box
together with its rasterized buffer identifier. -/
def regionLE (a b : Box × ℕ) : Prop :=
  a.1.y0 < b.1.y0 ∨ (a.1.y0 = b.1.y0 ∧ a.1.x0 ≤ b.1.x0)

instance : DecidableRel regionLE := by
  intro a b
  unfold regionLE
  infer_instance

instance : IsTotal (Box × ℕ) regionLE := by
  constructor
  intro a b
  rcases lt_trichotomy a.1.y0 b.1.y0 with h | h | h
  · exact Or.inl (Or.inl h)
  · rcases le_total a.1.x0 b.1.x0 with h2 | h2
    · exact Or.inl (Or.inr ⟨h, h2⟩)
    · exact Or.inr (Or.inr ⟨h.symm, h2⟩)
  · exact Or.inr (Or.inl h)

instance : IsTrans (Box × ℕ) regionLE := by
  constructor
  intro a b c hab hbc
  rcases hab with hab | ⟨hab, hab2⟩
  · rcases hbc with hbc | ⟨hbc, _⟩
    · exact Or.inl (hab.trans hbc)
    · exact Or.inl (hbc ▸ hab)
  · rcases hbc with hbc | ⟨hbc, hbc2⟩
    · exact Or.inl (hab ▸ hbc)
    · exact Or.inr ⟨hab.trans hbc, hab2.trans hbc2⟩

/-- The ordering the specification requires of the externally visible
figure sequence (spec section 6): ascending page, then top-to-bottom,
then left-to-right within a page. -/
def figureOrder (a b : FigureData) : Prop :=
  a.page < b.page ∨
    (a.page = b.page ∧
      (a.bbox.y0 < b.bbox.y0 ∨
        (a.bbox.y0 = b.bbox.y0 ∧ a.bbox.x0 ≤ b.bbox.x0)))

/-- Modelled from the spec: the per-page tail of the pipeline hands the
page's final regions to the orchestrator sorted by the engine's
ordering convention, as `FigureRecord`s carrying the 1-based page
number. -/
def pageFigures (pageNum : ℕ) (regions : List (Box × ℕ)) :
    List FigureData :=
  (List.insertionSort regionLE regions).map
    (fun r => FigureData.mk pageNum r.1 r.2)

/-- Modelled from the spec: the orchestrator "runs this pipeline once
per page, in page order, and concatenates results" (spec section 2);
`k` is the 1-based number of the first remaining page. -/
def extractAux : ℕ → List (List (Box × ℕ)) → List FigureData
  | _, [] => []
  | k, p :: ps => pageFigures k p ++ extractAux (k + 1) ps

/-- Modelled from the spec: `PDFFigureExtractor.extract_figures`
(`figure_extractor.py`, not under `src/`).  The document is given as the
per-page lists of final figure regions produced by the per-page
stages; pages are numbered from 1. -/
def extract_figures (doc : List (List (Box × ℕ))) : List FigureData :=
  extractAux 1 doc

/-- The whole pipeline run by `process_pdf` on an already-opened
document: extraction followed by per-figure classification, starting
from the initial session state. -/
def runPipeline (doc : List (List (Box × ℕ)))
    (oracle : ℕ → ModelOutcome) : SessionState × List Effect :=
  process_pdf initialState (Except.ok (extract_figures doc)) oracle

/-- A one-page, one-figure document used as concrete input. -/
def oneFigureDoc : List (List (Box × ℕ)) := [[(Box.mk 0 0 1 1, 0)]]

/-- A run of the external model that reports a bar chart for every
figure. -/
def barChartOracle : ℕ → ModelOutcome :=
  fun _ => ModelOutcome.success
    ⟨some "bar_chart", some (9/10), some "a bar chart", some [], some "bars"⟩

/-- A run of the external model that fails on every figure. -/
def failingOracle : ℕ → ModelOutcome := fun _ => ModelOutcome.error

/-! ## Spec-modelled region merger

The `RegionMerger` stage (spec section 4.4) is part of the extraction
engine, whose implementation is not under `src/`.  The definitions
below are modelled from the specification text: two candidates are
merged when their boxes' intersection-over-union exceeds the threshold
`t` (default 0.3); a box ≥ 95% contained in another is absorbed without
altering the larger's box; remaining overlaps are left as distinct
regions. -/

/-- Signed area of a box (positive for well-formed boxes). -/
def boxArea (b : Box) : ℚ := (b.x1 - b.x0) * (b.y1 - b.y0)

/-- Area of the intersection of two boxes (0 when disjoint). -/
def interArea (a b : Box) : ℚ :=
  max 0 (min a.x1 b.x1 - max a.x0 b.x0) *
    max 0 (min a.y1 b.y1 - max a.y0 b.y0)

/-- Area of the union of two boxes. -/
def unionArea (a b : Box) : ℚ := boxArea a + boxArea b - interArea a b

/-- Whether the boxes' intersection-over-union exceeds `t`, stated
multiplicatively to avoid division. -/
def iouExceeds (t : ℚ) (a b : Box) : Bool :=
  decide (t * unionArea a b < interArea a b)

/-- Whether box `b` is at least 95% contained within box `a`. -/
def containsMost (a b : Box) : Bool :=
  decide ((95/100 : ℚ) * boxArea b ≤ interArea a b)

/-- Modelled from the spec: the merge condition of spec section 4.4:
IoU above the threshold, or ≥ 95% containment either way. -/
def shouldMerge (t : ℚ) (a b : Box) : Bool :=
  iouExceeds t a b || containsMost a b || containsMost b a

/-- The smallest box covering both arguments. -/
def unionBox (a b : Box) : Box :=
  Box.mk (min a.x0 b.x0) (min a.y0 b.y0) (max a.x1 b.x1) (max a.y1 b.y1)

/-- Modelled from the spec: merging two candidates: a ≥ 95% contained
box is absorbed without altering the larger's box; otherwise the boxes
are united. -/
def mergeBoxes (a b : Box) : Box :=
  if containsMost a b then a
  else if containsMost b a then b
  else unionBox a b

/-- Find the first box in the list that should merge with `a`; returns
it together with the remaining boxes. -/
def findMergePartner (t : ℚ) (a : Box) :
    List Box → Option (Box × List Box)
  | [] => none
  | b :: rest =>
    if shouldMerge t a b then some (b, rest)
    else
      match findMergePartner t a rest with
      | some (c, rest2) => some (c, b :: rest2)
      | none => none

/-- Perform one merge of the first mergeable pair, if any. -/
def mergeStep (t : ℚ) : List Box → Option (List Box)
  | [] => none
  | a :: rest =>
    match findMergePartner t a rest with
    | some (b, rest2) => some (mergeBoxes a b :: rest2)
    | none =>
      match mergeStep t rest with
      | some rest2 => some (a :: rest2)
      | none => none

/-- Iterate `mergeStep` until no pair is mergeable, with enough fuel to
reach the fixpoint. -/
def regionMergerAux (t : ℚ) : ℕ → List Box → List Box
  | 0, l => l
  | fuel + 1, l =>
    match mergeStep t l with
    | some l2 => regionMergerAux t fuel l2
    | none => l

/-- Modelled from the spec: the `RegionMerger` stage (spec section
4.4): merge overlapping candidates until no pair exceeds the IoU
threshold or the containment bound; each merge reduces the region
count, so `l.length` steps of fuel reach the fixpoint. -/
def region_merger (t : ℚ) (l : List Box) : List Box :=
  regionMergerAux t l.length l

/-! ## Theorems -/

/-- C1 counterexample: when the model's JSON reports a type outside the
fixed label set and a confidence above 1, `classify_figure` passes both
through unvalidated, so the result's classification is not in
`figureCategoryKeys` and its confidence exceeds 1. -/
theorem c1_counterexample :
    (classify_figure (ModelOutcome.success
        ⟨some "not_a_real_category", some (3/2), none, none, none⟩)).classification ∉
        figureCategoryKeys ∧
    1 < (classify_figure (ModelOutcome.success
        ⟨some "not_a_real_category", some (3/2), none, none, none⟩)).confidence := by
  constructor
  · decide
  · show (1 : ℚ) < Option.getD (some (3/2)) (1/2)
    norm_num

/-- C1 (amended): `classify_figure` always returns a record with all five
fields; on a model failure the classification is the in-set label
"unknown" with confidence 0.3, and on a successful response the
classification lies in the fixed label set and the confidence in [0,1]
whenever the model's reported values do (the code performs no validation
of its own). -/
theorem c1_fields_from_response (r : ModelResponse)
    (h1 : r.rtype.getD "unknown" ∈ figureCategoryKeys)
    (h2 : 0 ≤ r.rconfidence.getD (1/2)) (h3 : r.rconfidence.getD (1/2) ≤ 1) :
    (classify_figure (ModelOutcome.success r)).classification ∈ figureCategoryKeys ∧
    0 ≤ (classify_figure (ModelOutcome.success r)).confidence ∧
    (classify_figure (ModelOutcome.success r)).confidence ≤ 1 ∧
    (classify_figure ModelOutcome.error).classification ∈ figureCategoryKeys ∧
    (0 : ℚ) ≤ (classify_figure ModelOutcome.error).confidence ∧
    (classify_figure ModelOutcome.error).confidence ≤ 1 := by
  refine ⟨h1, h2, h3, by decide, ?_, ?_⟩
  · show (0 : ℚ) ≤ 3/10
    norm_num
  · show (3/10 : ℚ) ≤ 1
    norm_num

/-- C1 witness: the amended theorem applied to a concrete well-formed
model response. -/
theorem c1_witness :
    (classify_figure (ModelOutcome.success
      ⟨some "bar_chart", some (9/10), some "a bar chart", some [], some "bars"⟩)).classification ∈
      figureCategoryKeys := by
  exact (c1_fields_from_response
    ⟨some "bar_chart", some (9/10), some "a bar chart", some [], some "bars"⟩
    (by decide)
    (by show (0 : ℚ) ≤ Option.getD (some (9/10)) (1/2); norm_num)
    (by show Option.getD (some (9/10)) (1/2) ≤ (1 : ℚ); norm_num)).1

/-- C2: on any model-call exception or on an empty response,
`classify_figure` returns the fallback record: classification "unknown",
confidence 0.3, and non-empty description and reasoning; no error
propagates (the embedding is a total function of the outcome). -/
theorem c2_fallback_on_failure (outcome : ModelOutcome)
    (h : outcome = ModelOutcome.error ∨ outcome = ModelOutcome.empty) :
    classify_figure outcome = _fallback_classification ∧
    (classify_figure outcome).classification = "unknown" ∧
    (classify_figure outcome).confidence = 3/10 ∧
    (classify_figure outcome).description ≠ "" ∧
    (classify_figure outcome).reasoning ≠ "" := by
  rcases h with h | h <;> subst h <;> exact ⟨rfl, rfl, rfl, by decide, by decide⟩

/-- C2 witness: the fallback theorem applied to the exception outcome. -/
theorem c2_witness :
    classify_figure ModelOutcome.error = _fallback_classification :=
  (c2_fallback_on_failure ModelOutcome.error (Or.inl rfl)).1

theorem classifyLoop_length (oracle : ℕ → ModelOutcome) (k : ℕ)
    (figures : List FigureData) :
    (classifyLoop oracle k figures).length = figures.length := by
  induction figures generalizing k with
  | nil => rfl
  | cons fd rest ih => simp [classifyLoop, ih]

theorem classifyLoop_get (oracle : ℕ → ModelOutcome) (k : ℕ)
    (figures : List FigureData) (i : ℕ) (hi : i < figures.length)
    (h2 : i < (classifyLoop oracle k figures).length) :
    (classifyLoop oracle k figures).get ⟨i, h2⟩ =
      mkClassRecord (k + i) (classify_figure (oracle (k + i)))
        (figures.get ⟨i, hi⟩) := by
  induction figures generalizing k i with
  | nil => exact absurd hi (Nat.not_lt_zero i)
  | cons fd rest ih =>
    cases i with
    | zero => simp [classifyLoop]
    | succ j =>
      have hj : j < rest.length := Nat.lt_of_succ_lt_succ hi
      have e : k + (j + 1) = (k + 1) + j := by omega
      rw [e]
      have h3 : j < (classifyLoop oracle (k + 1) rest).length := by
        rw [classifyLoop_length]; exact hj
      simpa [classifyLoop] using ih (k + 1) j hj h3

/-- C3: for a non-empty extracted list, `process_pdf` builds exactly one
classification record per figure, in figure order, carrying that
figure's page and bbox and a `figure_id` equal to its index; and records
are independent: changing the classifier outcome (including failure) at
one index leaves every other figure's record unchanged. -/
theorem c3_one_record_per_figure (figures : List FigureData)
    (oracle oracle2 : ℕ → ModelOutcome) (hne : figures ≠ []) :
    (classification_results oracle figures).length = figures.length ∧
    (∀ i (hi : i < figures.length)
        (h2 : i < (classification_results oracle figures).length),
      ((classification_results oracle figures).get ⟨i, h2⟩).figure_id = i ∧
      ((classification_results oracle figures).get ⟨i, h2⟩).page =
        (figures.get ⟨i, hi⟩).page ∧
      ((classification_results oracle figures).get ⟨i, h2⟩).bbox =
        (figures.get ⟨i, hi⟩).bbox) ∧
    (∀ k, (∀ j, j ≠ k → oracle j = oracle2 j) →
      ∀ i (hi : i < figures.length)
        (h2 : i < (classification_results oracle figures).length)
        (h3 : i < (classification_results oracle2 figures).length), i ≠ k →
        (classification_results oracle figures).get ⟨i, h2⟩ =
          (classification_results oracle2 figures).get ⟨i, h3⟩) := by
  refine ⟨classifyLoop_length oracle 0 figures, ?_, ?_⟩
  · intro i hi h2
    simp only [classification_results] at h2 ⊢
    rw [classifyLoop_get oracle 0 figures i hi h2]
    simp [mkClassRecord]
  · intro k hagree i hi h2 h3 hik
    simp only [classification_results] at h2 h3 ⊢
    rw [classifyLoop_get oracle 0 figures i hi h2,
        classifyLoop_get oracle2 0 figures i hi h3,
        hagree (0 + i) (by omega)]

/-- C3 witness: the per-figure record theorem applied to a concrete
one-figure list with a failing classifier. -/
theorem c3_witness :
    (classification_results (fun _ => ModelOutcome.error)
      [⟨1, ⟨0, 0, 1, 1⟩, 0⟩]).length = 1 :=
  (c3_one_record_per_figure [⟨1, ⟨0, 0, 1, 1⟩, 0⟩]
    (fun _ => ModelOutcome.error) (fun _ => ModelOutcome.error)
    (by simp)).1

/-- C5: when `extract_figures` returns an empty sequence, `process_pdf`
issues a warning (not an error), removes the temporary file, returns,
and leaves the session state (including `processing_complete` and the
stored results) unchanged. -/
theorem c5_zero_figures_is_not_error (st : SessionState)
    (oracle : ℕ → ModelOutcome) :
    process_pdf st (Except.ok []) oracle =
      (st, [Effect.warnNoFigures, Effect.unlinkTmp]) ∧
    (process_pdf st (Except.ok []) oracle).1 = st ∧
    Effect.warnNoFigures ∈ (process_pdf st (Except.ok []) oracle).2 ∧
    Effect.unlinkTmp ∈ (process_pdf st (Except.ok []) oracle).2 ∧
    Effect.errorMessage ∉ (process_pdf st (Except.ok []) oracle).2 := by
  refine ⟨rfl, rfl, ?_, ?_, ?_⟩ <;> simp [process_pdf]

theorem csvRowsLoop_length (k : ℕ) (cls : List ClassRecord) :
    (csvRowsLoop k cls).length = cls.length := by
  induction cls generalizing k with
  | nil => rfl
  | cons c rest ih => simp [csvRowsLoop, ih]

theorem csvRowsLoop_get (k : ℕ) (cls : List ClassRecord) (i : ℕ)
    (hi : i < cls.length) (h2 : i < (csvRowsLoop k cls).length) :
    (csvRowsLoop k cls).get ⟨i, h2⟩ =
      mkCsvRow (k + i) (cls.get ⟨i, hi⟩) := by
  induction cls generalizing k i with
  | nil => exact absurd hi (Nat.not_lt_zero i)
  | cons c rest ih =>
    cases i with
    | zero => simp [csvRowsLoop]
    | succ j =>
      have hj : j < rest.length := Nat.lt_of_succ_lt_succ hi
      have e : k + (j + 1) = (k + 1) + j := by omega
      rw [e]
      have h3 : j < (csvRowsLoop (k + 1) rest).length := by
        rw [csvRowsLoop_length]; exact hj
      simpa [csvRowsLoop] using ih (k + 1) j hj h3

theorem pngEntriesLoop_length (k : ℕ)
    (pairs : List (FigureData × ClassRecord)) :
    (pngEntriesLoop k pairs).length = pairs.length := by
  induction pairs generalizing k with
  | nil => rfl
  | cons p rest ih =>
    obtain ⟨fig, c⟩ := p
    simp [pngEntriesLoop, ih]

theorem pngEntriesLoop_get (k : ℕ)
    (pairs : List (FigureData × ClassRecord)) (i : ℕ)
    (hi : i < pairs.length) (h2 : i < (pngEntriesLoop k pairs).length) :
    (pngEntriesLoop k pairs).get ⟨i, h2⟩ =
      ZipEntry.mk (pngName ((pairs.get ⟨i, hi⟩).2.page) (k + i))
        (ZipContent.png ((pairs.get ⟨i, hi⟩).1.image)) := by
  induction pairs generalizing k i with
  | nil => exact absurd hi (Nat.not_lt_zero i)
  | cons p rest ih =>
    obtain ⟨fig, c⟩ := p
    cases i with
    | zero => simp [pngEntriesLoop]
    | succ j =>
      have hj : j < rest.length := Nat.lt_of_succ_lt_succ hi
      have e : k + (j + 1) = (k + 1) + j := by omega
      rw [e]
      have h3 : j < (pngEntriesLoop (k + 1) rest).length := by
        rw [pngEntriesLoop_length]; exact hj
      simpa [pngEntriesLoop] using ih (k + 1) j hj h3

/-- C4: for `n` figures with `n` classification records, the ZIP archive
holds exactly `n + 1` entries: the `figure_summary.csv` summary first,
whose `i`-th row carries the `i`-th record's type, confidence and page,
then one PNG per figure named `figure_page_` page `_` index `.png`
holding that figure's image. -/
theorem c4_zip_archive_contents (figures : List FigureData)
    (classifications : List ClassRecord)
    (h : figures.length = classifications.length) :
    (create_zip_download figures classifications).length =
      classifications.length + 1 ∧
    (create_zip_download figures classifications).head? =
      some (ZipEntry.mk "figure_summary.csv"
        (ZipContent.csv (csvRowsLoop 0 classifications))) ∧
    (csvRowsLoop 0 classifications).length = classifications.length ∧
    (∀ i (hi : i < classifications.length)
        (h2 : i < (csvRowsLoop 0 classifications).length),
      ((csvRowsLoop 0 classifications).get ⟨i, h2⟩).ftype =
        (classifications.get ⟨i, hi⟩).classification ∧
      ((csvRowsLoop 0 classifications).get ⟨i, h2⟩).confidence =
        (classifications.get ⟨i, hi⟩).confidence ∧
      ((csvRowsLoop 0 classifications).get ⟨i, h2⟩).page =
        (classifications.get ⟨i, hi⟩).page) ∧
    (∀ i (hi : i < classifications.length) (hf : i < figures.length)
        (h2 : i + 1 < (create_zip_download figures classifications).length),
      (create_zip_download figures classifications).get ⟨i + 1, h2⟩ =
        ZipEntry.mk (pngName ((classifications.get ⟨i, hi⟩).page) i)
          (ZipContent.png ((figures.get ⟨i, hf⟩).image))) := by
  refine ⟨?_, rfl, csvRowsLoop_length 0 classifications, ?_, ?_⟩
  · simp [create_zip_download, pngEntriesLoop_length, List.length_zip, h]
  · intro i hi h2
    rw [csvRowsLoop_get 0 classifications i hi h2]
    simp [mkCsvRow]
  · intro i hi hf h2
    have hz : i < (figures.zip classifications).length := by
      rw [List.length_zip]; omega
    have h3 : i < (pngEntriesLoop 0 (figures.zip classifications)).length := by
      rw [pngEntriesLoop_length]; exact hz
    have hstep :
        (create_zip_download figures classifications).get ⟨i + 1, h2⟩ =
          (pngEntriesLoop 0 (figures.zip classifications)).get ⟨i, h3⟩ := by
      simp [create_zip_download]
    rw [hstep, pngEntriesLoop_get 0 (figures.zip classifications) i hz h3]
    have hget : (figures.zip classifications).get ⟨i, hz⟩ =
        (figures.get ⟨i, hf⟩, classifications.get ⟨i, hi⟩) := by
      rw [List.get_zip]
    rw [hget]
    simp

/-- C4 witness: the archive theorem applied to a concrete one-figure
input. -/
theorem c4_witness :
    (create_zip_download [⟨2, ⟨0, 0, 1, 1⟩, 7⟩]
      [⟨0, "bar_chart", 9/10, "d", [], "r", 2, ⟨0, 0, 1, 1⟩⟩]).length = 2 :=
  (c4_zip_archive_contents [⟨2, ⟨0, 0, 1, 1⟩, 7⟩]
    [⟨0, "bar_chart", 9/10, "d", [], "r", 2, ⟨0, 0, 1, 1⟩⟩] rfl).1

theorem batchLoop_eq (oracle : ℕ → ModelOutcome) (total : ℕ) (cb : Bool)
    (k : ℕ) (imgs : List ℕ) :
    batchLoop oracle total cb k imgs =
      (imgs.map (fun img => classify_figure (oracle img)),
       if cb then
         (List.range imgs.length).map (fun j => (k + j + 1, total))
       else []) := by
  induction imgs generalizing k with
  | nil => cases cb <;> simp [batchLoop]
  | cons img rest ih =>
    simp only [batchLoop, ih (k + 1), List.map_cons, List.length_cons]
    cases cb with
    | false => simp
    | true =>
      simp only [if_true]
      refine congrArg (Prod.mk _) ?_
      rw [List.range_succ_eq_map, List.map_cons, List.map_map]
      refine congrArg (List.cons _) ?_
      refine List.map_congr_left ?_
      intro j _
      simp only [Function.comp_apply]
      refine congrArg (fun n => (n, total)) ?_
      omega

/-- C10: `batch_classify` returns one result per image, the `i`-th being
the classification of the `i`-th image, and when a progress callback is
supplied it is invoked exactly once per image with `(i + 1, total)` in
ascending order; without a callback no invocation happens. -/
theorem c10_batch_results_and_progress (oracle : ℕ → ModelOutcome)
    (images : List ℕ) :
    (batch_classify oracle images true).1 =
      images.map (fun img => classify_figure (oracle img)) ∧
    (batch_classify oracle images false).1 =
      images.map (fun img => classify_figure (oracle img)) ∧
    (batch_classify oracle images true).1.length = images.length ∧
    (batch_classify oracle images true).2 =
      (List.range images.length).map (fun j => (j + 1, images.length)) ∧
    (batch_classify oracle images false).2 = [] := by
  have h1 := batchLoop_eq oracle images.length true 0 images
  have h2 := batchLoop_eq oracle images.length false 0 images
  refine ⟨?_, ?_, ?_, ?_, ?_⟩
  · simp only [batch_classify]; rw [h1]
  · simp only [batch_classify]; rw [h2]
  · simp only [batch_classify]; rw [h1]; simp
  · simp only [batch_classify]; rw [h1]; simp
  · simp only [batch_classify]; rw [h2]; simp

/-- C6 counterexample: clicking "Process PDF from URL" supplies the
engine with a downloaded local file without any prior validation: the
trace of `process_pdf_from_url` starts with the download and contains no
size/content-type report before it. -/
theorem c6_counterexample :
    ¬ validatedBeforeDownload
        (process_pdf_from_url "https://example.com/document.pdf" true) := by
  intro h
  have hj : 0 <
      (process_pdf_from_url "https://example.com/document.pdf" true).length := by
    simp [process_pdf_from_url]
  obtain ⟨i, hi, hlt, -⟩ :=
    h 0 hj ⟨"https://example.com/document.pdf", rfl⟩
  omega

/-- C6 (amended): validation with size/content-type reporting exists
only as the separate `validate_pdf_url` action, which reports the file
information for a reachable PDF URL and never downloads;
`process_pdf_from_url` itself downloads directly, as its first action,
without requiring prior validation or confirmation. -/
theorem c6_validation_is_separate (url : String) (fi : FileInfo)
    (downloadOk : Bool) (hpdf : fi.is_pdf = true) :
    validate_pdf_url url (some fi) =
      [UrlAction.getFileInfo url,
       UrlAction.reportValidInfo fi.file_size_mb fi.content_type] ∧
    (∀ u, UrlAction.download u ∉ validate_pdf_url url (some fi)) ∧
    validate_pdf_url url none =
      [UrlAction.getFileInfo url, UrlAction.errorNotAccessible] ∧
    (process_pdf_from_url url downloadOk).head? =
      some (UrlAction.download url) := by
  refine ⟨?_, ?_, rfl, ?_⟩
  · simp [validate_pdf_url, hpdf]
  · intro u
    simp [validate_pdf_url, hpdf]
  · cases downloadOk <;> rfl

/-- C6 witness: the amended theorem applied to a concrete reachable PDF
URL. -/
theorem c6_witness :
    (process_pdf_from_url "https://example.com/document.pdf" true).head? =
      some (UrlAction.download "https://example.com/document.pdf") :=
  (c6_validation_is_separate "https://example.com/document.pdf"
    ⟨true, 1, "application/pdf", "https://example.com/document.pdf"⟩
    true rfl).2.2.2

theorem pageFigures_page (k : ℕ) (regions : List (Box × ℕ)) :
    ∀ r ∈ pageFigures k regions, r.page = k := by
  intro r hr
  simp only [pageFigures, List.mem_map] at hr
  obtain ⟨p, -, rfl⟩ := hr
  rfl

theorem pageFigures_pairwise (k : ℕ) (regions : List (Box × ℕ)) :
    List.Pairwise figureOrder (pageFigures k regions) := by
  have hs : List.Sorted regionLE (List.insertionSort regionLE regions) :=
    List.sorted_insertionSort regionLE regions
  refine List.Pairwise.map _ ?_ hs
  intro a b hab
  exact Or.inr ⟨rfl, hab⟩

theorem extractAux_page_ge (k : ℕ) (doc : List (List (Box × ℕ))) :
    ∀ r ∈ extractAux k doc, k ≤ r.page := by
  induction doc generalizing k with
  | nil => intro r hr; exact absurd hr (List.not_mem_nil r)
  | cons p ps ih =>
    intro r hr
    simp only [extractAux, List.mem_append] at hr
    rcases hr with hr | hr
    · exact (pageFigures_page k p r hr).ge
    · exact Nat.le_of_succ_le (ih (k + 1) r hr)

theorem extractAux_pairwise (k : ℕ) (doc : List (List (Box × ℕ))) :
    List.Pairwise figureOrder (extractAux k doc) := by
  induction doc generalizing k with
  | nil => exact List.Pairwise.nil
  | cons p ps ih =>
    rw [extractAux, List.pairwise_append]
    refine ⟨pageFigures_pairwise k p, ih (k + 1), ?_⟩
    intro a ha b hb
    left
    have h1 : a.page = k := pageFigures_page k p a ha
    have h2 : k + 1 ≤ b.page := extractAux_page_ge (k + 1) ps b hb
    omega

/-- C7: the extraction engine's output is an ordered sequence of figure
records with 1-based page numbers: ordered by ascending page, and
within a page top-to-bottom then left-to-right by the box's top-left
corner, each record carrying page, bbox and raster buffer. -/
theorem c7_extract_figures_ordered (doc : List (List (Box × ℕ))) :
    List.Pairwise figureOrder (extract_figures doc) ∧
    ∀ r ∈ extract_figures doc, 1 ≤ r.page :=
  ⟨extractAux_pairwise 1 doc, extractAux_page_ge 1 doc⟩

theorem findMergePartner_none (t : ℚ) (a : Box) :
    ∀ l : List Box, findMergePartner t a l = none →
      ∀ b ∈ l, shouldMerge t a b = false := by
  intro l
  induction l with
  | nil => intro _ b hb; exact absurd hb (List.not_mem_nil b)
  | cons c rest ih =>
    intro h b hb
    simp only [findMergePartner] at h
    by_cases hc : shouldMerge t a c = true
    · rw [if_pos hc] at h
      exact Option.noConfusion h
    · rw [if_neg hc] at h
      have hrest : findMergePartner t a rest = none := by
        rcases hfr : findMergePartner t a rest with _ | pr
        · rfl
        · obtain ⟨c2, rest2⟩ := pr
          rw [hfr] at h
          exact Option.noConfusion h
      rcases List.mem_cons.mp hb with rfl | hbr
      · cases hsm : shouldMerge t a b with
        | false => rfl
        | true => exact absurd hsm hc
      · exact ih hrest b hbr

theorem findMergePartner_some_length (t : ℚ) (a : Box) :
    ∀ (l rest2 : List Box) (b : Box),
      findMergePartner t a l = some (b, rest2) →
      rest2.length + 1 = l.length := by
  intro l
  induction l with
  | nil =>
    intro rest2 b h
    exact Option.noConfusion h
  | cons c rest ih =>
    intro rest2 b h
    simp only [findMergePartner] at h
    by_cases hc : shouldMerge t a c = true
    · rw [if_pos hc] at h
      injection h with h2
      injection h2 with hb hr
      subst hb
      subst hr
      simp
    · rw [if_neg hc] at h
      rcases hfr : findMergePartner t a rest with _ | pr
      · rw [hfr] at h
        exact Option.noConfusion h
      · obtain ⟨c2, r2⟩ := pr
        rw [hfr] at h
        injection h with h2
        injection h2 with hb hr
        subst hb
        subst hr
        have h3 := ih r2 c2 hfr
        simp only [List.length_cons]
        omega

theorem mergeStep_none (t : ℚ) :
    ∀ l : List Box, mergeStep t l = none →
      List.Pairwise (fun a b => shouldMerge t a b = false) l := by
  intro l
  induction l with
  | nil => intro _; exact List.Pairwise.nil
  | cons a rest ih =>
    intro h
    simp only [mergeStep] at h
    rcases hf : findMergePartner t a rest with _ | pr
    · rw [hf] at h
      have hrest : mergeStep t rest = none := by
        rcases hm : mergeStep t rest with _ | l2
        · rfl
        · rw [hm] at h
          exact Option.noConfusion h
      exact List.Pairwise.cons (findMergePartner_none t a rest hf)
        (ih hrest)
    · obtain ⟨b, rest2⟩ := pr
      rw [hf] at h
      exact Option.noConfusion h

theorem mergeStep_some_length (t : ℚ) :
    ∀ l l2 : List Box, mergeStep t l = some l2 → l2.length < l.length := by
  intro l
  induction l with
  | nil =>
    intro l2 h
    exact Option.noConfusion h
  | cons a rest ih =>
    intro l2 h
    simp only [mergeStep] at h
    rcases hf : findMergePartner t a rest with _ | pr
    · rw [hf] at h
      rcases hm : mergeStep t rest with _ | r2
      · rw [hm] at h
        exact Option.noConfusion h
      · rw [hm] at h
        injection h with h2
        rw [← h2]
        have h3 := ih r2 hm
        simp only [List.length_cons]
        omega
    · obtain ⟨b, rest2⟩ := pr
      rw [hf] at h
      injection h with h2
      rw [← h2]
      have h3 := findMergePartner_some_length t a rest rest2 b hf
      simp only [List.length_cons]
      omega

theorem regionMergerAux_fixpoint (t : ℚ) :
    ∀ (fuel : ℕ) (l : List Box), l.length ≤ fuel →
      mergeStep t (regionMergerAux t fuel l) = none := by
  intro fuel
  induction fuel with
  | zero =>
    intro l hl
    have h0 : l = [] := List.length_eq_zero.mp (Nat.le_zero.mp hl)
    subst h0
    rfl
  | succ fuel ih =>
    intro l hl
    cases hm : mergeStep t l with
    | none =>
      simp only [regionMergerAux, hm]
    | some l2 =>
      simp only [regionMergerAux, hm]
      have h3 := mergeStep_some_length t l l2 hm
      exact ih l2 (by omega)

/-- C8: the regions produced by the merger stage are pairwise
non-overlapping beyond the configured tolerance: for every input list
and every threshold `t`, no two output regions have an
intersection-over-union above `t` (stated multiplicatively). -/
theorem c8_merged_regions_nonoverlapping (t : ℚ) (l : List Box) :
    List.Pairwise (fun a b => interArea a b ≤ t * unionArea a b)
      (region_merger t l) := by
  have hfix : mergeStep t (region_merger t l) = none :=
    regionMergerAux_fixpoint t l.length l (le_refl _)
  have hp := mergeStep_none t (region_merger t l) hfix
  refine hp.imp ?_
  intro a b hab
  have hio : iouExceeds t a b = false := by
    simp only [shouldMerge, Bool.or_eq_false_iff] at hab
    exact hab.1.1
  have h2 : ¬(t * unionArea a b < interArea a b) :=
    of_decide_eq_false (by simpa [iouExceeds] using hio)
  exact not_lt.mp h2

/-- C9 counterexample: two runs of the pipeline on the same one-figure
document, where the external model answers "bar_chart" in one run and
fails in the other, produce different classification results, so the
output is not identical across runs. -/
theorem c9_counterexample :
    runPipeline oneFigureDoc barChartOracle ≠
      runPipeline oneFigureDoc failingOracle := by
  intro h
  have h2 : (["bar_chart"] : List String) = ["unknown"] :=
    congrArg (fun p : SessionState × List Effect =>
      p.1.classification_results.map ClassRecord.classification) h
  exact absurd h2 (by decide)

/-- C9 (amended): the extracted figure sequence is deterministic (equal
across any two runs on the same document), and the whole pipeline
output, classification results included, is identical across two runs
whenever the external model returns the same responses in both. -/
theorem c9_deterministic_given_model (doc : List (List (Box × ℕ)))
    (o1 o2 : ℕ → ModelOutcome) :
    (runPipeline doc o1).1.extracted_figures =
      (runPipeline doc o2).1.extracted_figures ∧
    ((∀ i, o1 i = o2 i) → runPipeline doc o1 = runPipeline doc o2) := by
  constructor
  · by_cases hemp : (extract_figures doc).isEmpty
    · simp [runPipeline, process_pdf, hemp]
    · simp [runPipeline, process_pdf, hemp]
  · intro h
    have h2 : o1 = o2 := funext h
    rw [h2]

/-- C9 witness: the determinism theorem applied to a concrete document
with the model responses of the two runs agreeing pointwise. -/
theorem c9_witness :
    runPipeline oneFigureDoc failingOracle =
      runPipeline oneFigureDoc failingOracle :=
  (c9_deterministic_given_model oneFigureDoc failingOracle
    failingOracle).2 (fun _ => rfl)

end FigSense
